import Mathlib

/-!
# Verification of the helpdesk evaluation engine (`src/eval/run_eval.py`)

A shallow embedding of the evaluation/grading core:

* the event extractor (`_last_assistant_text`, `_walk_json`,
  `_extract_function_calls_and_responses`),
* the scenario grader (`_grade_test` with its helpers `_count_questions`,
  `_has_numbered_steps`, `_contains_any`, `_match_any_regex`),
* the run orchestrator (`main`, `_create_session`, `_run_turn`).

Modelling conventions:

* JSON values (the opaque event records) are the inductive `Json` below.
  Dictionary access `d.get(k)` is `jGet`; it yields `none` on a
  non-mapping value (the source annotates events as `List[Dict]` and
  assumes mapping shape on these paths).
* Python float arithmetic on the scores is modelled with exact
  rationals (`ℚ`); the score constants 1.0, 0.85, 0.9, 0.0 are the
  corresponding rationals.
* The regular-expression library `re` is external to the repository; a
  compiled-or-invalid pattern is modelled as `RePattern`: a validity
  flag plus the (case-insensitive) match predicate of the compiled
  pattern.  `re.search` on an invalid pattern raises, modelled as
  `Except.error`.
* The HTTP transport (`requests.post` plus `raise_for_status`) is
  modelled as an oracle mapping the scenario index (sessions are fresh
  per scenario) and turn index to either a transport error or the
  returned event list.
-/

/-- A JSON-like value, the shape of the opaque agent events. -/
inductive Json where
  | null : Json
  | bool (b : Bool) : Json
  | num (n : Int) : Json
  | str (s : String) : Json
  | arr (elems : List Json) : Json
  | obj (fields : List (String × Json)) : Json

/-- First-match field lookup in a JSON object, Python `d.get(k)` on a dict. -/
def lookupField : List (String × Json) → String → Option Json
  | [], _ => none
  | (k, v) :: rest, key => if k = key then some v else lookupField rest key

/-- Python `d.get(k)`: `none` when the key is absent or the value is not a
mapping (the source only applies `.get` to values it annotates as dicts). -/
def jGet : Json → String → Option Json
  | .obj kvs, k => lookupField kvs k
  | _, _ => none

/-- Python truthiness of a JSON value. -/
def Json.truthy : Json → Bool
  | .null => false
  | .bool b => b
  | .num n => n != 0
  | .str s => s != ""
  | .arr xs => !xs.isEmpty
  | .obj kvs => !kvs.isEmpty

/-- Python `d.get(k) or default`: the stored value when present and truthy,
otherwise the default. -/
def jGetOr (j : Json) (k : String) (d : Json) : Json :=
  match jGet j k with
  | some v => if v.truthy then v else d
  | none => d

/-- The elements of a JSON sequence (iteration over a non-sequence value is
outside the shapes the source iterates). -/
def Json.elems : Json → List Json
  | .arr xs => xs
  | _ => []

/-- Python `txt.strip()` is truthy: the string contains a non-whitespace character. -/
def nonBlank (s : String) : Bool :=
  s.data.any fun c => !c.isWhitespace

/-- The `parts` list of an event: `(ev.get("content") or {}).get("parts") or []`. -/
def partsOf (ev : Json) : List Json :=
  (jGetOr (jGetOr ev "content" (Json.obj [])) "parts" (Json.arr [])).elems

/-- One part's text when it is a string with non-blank content
(`txt = p.get("text"); isinstance(txt, str) and txt.strip()`). -/
def textOfPart (p : Json) : Option String :=
  match jGet p "text" with
  | some (.str s) => if nonBlank s then some s else none
  | _ => none

/-- First non-blank text among a list of parts, in original part order. -/
def firstTextInParts : List Json → Option String
  | [] => none
  | p :: ps =>
    match textOfPart p with
    | some t => some t
    | none => firstTextInParts ps

/-- Scan of `_last_assistant_text`: the events are given already reversed;
the first event owning a non-blank text part supplies the result. -/
def lastTextScan : List Json → Option String
  | [] => none
  | ev :: rest =>
    match firstTextInParts (partsOf ev) with
    | some t => some t
    | none => lastTextScan rest

/-- The function `_last_assistant_text(events)`: last (in event order) non-empty text part,
empty string when none exists. -/
def lastAssistantText (events : List Json) : String :=
  (lastTextScan events.reverse).getD ""

mutual

/-- The generator `_walk_json(obj)`: all dictionaries in a nested JSON structure, in
generator order (a dict yields itself before its values). -/
def walkJson : Json → List Json
  | .obj kvs => Json.obj kvs :: walkFields kvs
  | .arr xs => walkElems xs
  | .null => []
  | .bool _ => []
  | .num _ => []
  | .str _ => []

/-- The walk `_walk_json` over the values of a dict, in field order. -/
def walkFields : List (String × Json) → List Json
  | [] => []
  | (_, v) :: rest => walkJson v ++ walkFields rest

/-- The walk `_walk_json` over the items of a list, in order. -/
def walkElems : List Json → List Json
  | [] => []
  | x :: rest => walkJson x ++ walkElems rest

end

/-- Python `fc = p.get(k1) or p.get(k2)` in the structured scan: the first key's
value when present and truthy, otherwise the second key's value. -/
def getTruthyOr (p : Json) (k1 k2 : String) : Option Json :=
  match jGet p k1 with
  | some v => if v.truthy then some v else jGet p k2
  | none => jGet p k2

/-- The name recorded by the structured scan for one part under the key pair
(camelCase key, snake_case key): the descriptor must be a dict whose
`name` field is a string. -/
def partNameVia (k1 k2 : String) (p : Json) : Option String :=
  match getTruthyOr p k1 k2 with
  | some (.obj fc) =>
    match lookupField fc "name" with
    | some (.str n) => some n
    | _ => none
  | _ => none

/-- The structured scan of `_extract_function_calls_and_responses`: events in
forward order, parts in order, collecting names under the key pair. -/
def structuredNames (k1 k2 : String) (events : List Json) : List String :=
  events.flatMap fun ev => (partsOf ev).filterMap (partNameVia k1 k2)

/-- One fallback hit: `key in d and isinstance(d[key], dict)` with a string
`name` inside. -/
def fallbackNameAt (key : String) (d : Json) : Option String :=
  match jGet d key with
  | some (.obj fc) =>
    match lookupField fc "name" with
    | some (.str n) => some n
    | _ => none
  | _ => none

/-- The fallback scan: every dict anywhere in the event structure whose
`key` entry is a dict with a string `name`. -/
def fallbackNames (key : String) (events : List Json) : List String :=
  (walkElems events).filterMap (fallbackNameAt key)

/-- The function `_extract_function_calls_and_responses(events)`: the structured forward
scan; when either resulting list is empty, the fallback walk's hits are
appended to both lists. -/
def extractFunctionCallsAndResponses (events : List Json) : List String × List String :=
  let calls := structuredNames "functionCall" "function_call" events
  let responses := structuredNames "functionResponse" "function_response" events
  if calls.isEmpty || responses.isEmpty then
    (calls ++ fallbackNames "functionCall" events,
     responses ++ fallbackNames "functionResponse" events)
  else
    (calls, responses)

/-- Heuristic `_count_questions(text) = text.count("?")`. -/
def countQuestions (text : String) : Nat :=
  text.toList.count '?'

/-- Whitespace as matched by `\s` (and stripped by `str.strip`). -/
def isWs (c : Char) : Bool :=
  c.isWhitespace

/-- Match of `\s*(\d+\.|\d+\))\s+\S` from one position of the text: optional
whitespace, one or more digits, a dot or closing parenthesis, at least one
whitespace character, then a non-whitespace character. -/
def numberedStepFrom (l : List Char) : Bool :=
  let l1 := l.dropWhile isWs
  let digits := l1.takeWhile Char.isDigit
  let rest := l1.dropWhile Char.isDigit
  !digits.isEmpty &&
    match rest with
    | c :: r2 =>
      (c = '.' || c = ')') &&
        !(r2.takeWhile isWs).isEmpty && !(r2.dropWhile isWs).isEmpty
    | [] => false

/-- The suffixes of the text that start right after a newline. -/
def afterNewlines : List Char → List (List Char)
  | [] => []
  | c :: cs => (if c = '\n' then [cs] else []) ++ afterNewlines cs

/-- The function `_has_numbered_steps(text)`: the multiline regex
`(?m)^\s*(\d+\.|\d+\))\s+\S+` matches, i.e. the pattern fires at the start
of the text or just after some newline. -/
def hasNumberedSteps (text : String) : Bool :=
  (text.toList :: afterNewlines text.toList).any numberedStepFrom

/-- Python `s.lower()`: lower-case every character. -/
def pyLower (s : String) : String :=
  ⟨s.data.map Char.toLower⟩

/-- Case-insensitive substring test, Python `o.lower() in text.lower()`. -/
def containsCI (text o : String) : Bool :=
  decide ((pyLower o).data <:+: (pyLower text).data)

/-- Keyword test `_contains_any(text, options)`. -/
def containsAny (text : String) (options : List String) : Bool :=
  options.any fun o => containsCI text o

/-- A regular expression as handed to `re.search`: either invalid (raises
`re.error` when compiled) or a case-insensitive match predicate. -/
structure RePattern where
  valid : Bool
  search : String → Bool

/-- Errors the evaluation can surface: a transport failure (connection
error, non-success status or timeout, carrying the scenario and turn
positions) or a regex compilation error (`re.error`). -/
inductive EvalError where
  | transport (scenario : Nat) (turn : Option Nat) : EvalError
  | regexError : EvalError
deriving DecidableEq

/-- The function `_match_any_regex(text, patterns)`: `any(...)` over a generator, so the
patterns are tried left to right, stopping at the first match; an invalid
pattern reached before a match raises. -/
def matchAnyRegex (text : String) : List RePattern → Except EvalError Bool
  | [] => .ok false
  | p :: rest =>
    if p.valid then
      if p.search text then .ok true else matchAnyRegex text rest
    else
      .error .regexError

/-- The `{min_questions: int}` object of `must_ask_questions` /
`should_ask_questions`, with the lookup default of 1 already applied
(`int(d.get("min_questions", 1))`); `none` models a falsy/absent value. -/
structure QuestionSpec where
  min_questions : Int := 1
deriving DecidableEq

/-- The `style` object; `prefer_numbered_steps` defaults to `False`. -/
structure StyleSpec where
  prefer_numbered_steps : Bool := false
deriving DecidableEq

/-- The declarative per-scenario expectation (`test["expect"]`).  Every key
is optional; an absent key is the default below.  `approval_turn` is a turn
index (a natural number per the data model). -/
structure Expectation where
  must_call_tools : List String := []
  must_not_call_tools : List String := []
  should_call_tools : List String := []
  approval_turn : Option Nat := none
  must_not_call_tools_before_approval : List String := []
  must_call_tools_after_approval : List String := []
  must_include_any : List (List String) := []
  should_include_any : List (List String) := []
  must_include_any_after_approval : List (List String) := []
  must_ask_questions : Option QuestionSpec := none
  should_ask_questions : Option QuestionSpec := none
  must_not_include_patterns : List RePattern := []
  style : StyleSpec := {}

/-- One scripted scenario (`test`): name, description, the scripted user
turns, and the expectation. -/
structure TestCase where
  name : String := ""
  description : String := ""
  turns : List String := []
  expect : Expectation := {}

/-- The result of one conversational turn. -/
structure TurnResult where
  user : String
  assistant_text : String
  tool_calls : List String
  tool_responses : List String
  raw_events : List Json

/-- The four weight coefficients, with the `weights.get(k, default)`
defaults already resolved. -/
structure Weights where
  trajectory : ℚ := 0.4
  content : ℚ := 0.4
  safety : ℚ := 0.1
  style : ℚ := 0.1
deriving DecidableEq

/-- The default weight mapping `{trajectory: 0.4, content: 0.4, safety: 0.1, style: 0.1}`. -/
def defaultWeights : Weights := {}

/-- The five reported scores. -/
structure Scores where
  trajectory : ℚ
  content : ℚ
  safety : ℚ
  style : ℚ
  total : ℚ
deriving DecidableEq

/-- The grade record returned by `_grade_test`. -/
structure GradeResult where
  name : String
  description : String
  scores : Scores
  details : List String
  final_text : String
  tool_calls : List String
deriving DecidableEq

/-- Python `final_text = turns[-1].assistant_text if turns else ""`. -/
def finalTextOf (turns : List TurnResult) : String :=
  match turns.getLast? with
  | some tr => tr.assistant_text
  | none => ""

/-- The `must_call_tools` loop of `_grade_test`: a hard zero for every
required tool absent from the concatenated calls. -/
def mustCallCheck (mustCall allCalls : List String) (acc : ℚ × List String) : ℚ × List String :=
  mustCall.foldl (fun acc tool =>
    if tool ∈ allCalls then acc
    else (acc.1 * 0, acc.2 ++ [s!"Missing required tool call: {tool}"])) acc

/-- The `must_not_call_tools` loop: a hard zero for every disallowed tool
present. -/
def mustNotCallCheck (mustNot allCalls : List String) (acc : ℚ × List String) : ℚ × List String :=
  mustNot.foldl (fun acc tool =>
    if tool ∈ allCalls then (acc.1 * 0, acc.2 ++ [s!"Disallowed tool call occurred: {tool}"])
    else acc) acc

/-- The `should_call_tools` loop: a soft ×0.85 for every recommended tool
absent. -/
def shouldCallCheck (shouldCall allCalls : List String) (acc : ℚ × List String) : ℚ × List String :=
  shouldCall.foldl (fun acc tool =>
    if tool ∈ allCalls then acc
    else (acc.1 * 0.85, acc.2 ++ [s!"Did not call recommended tool: {tool}"])) acc

/-- The approval-gate loop: for every gated tool and every turn index in
`range(0, min(approval_turn, len(calls_by_turn)))`, a hard zero when the
tool was called in that turn.  Skipped when `approval_turn` is unset or the
gated list is empty. -/
def approvalGateCheck (e : Expectation) (callsByTurn : List (List String))
    (acc : ℚ × List String) : ℚ × List String :=
  match e.approval_turn with
  | some k =>
    if e.must_not_call_tools_before_approval.isEmpty then acc
    else
      e.must_not_call_tools_before_approval.foldl (fun acc t =>
        (List.range (min k callsByTurn.length)).foldl (fun acc i =>
          if t ∈ callsByTurn.getD i [] then
            (acc.1 * 0, acc.2 ++ [s!"Approval gate violated: called {t} before approval (turn {i})"])
          else acc) acc) acc
  | none => acc

/-- The `must_call_tools_after_approval` loop: the calls from turn
`approval_turn` onward are concatenated; a hard zero for every required
tool absent from that suffix. -/
def mustAfterApprovalCheck (e : Expectation) (callsByTurn : List (List String))
    (acc : ℚ × List String) : ℚ × List String :=
  match e.approval_turn with
  | some k =>
    if e.must_call_tools_after_approval.isEmpty then acc
    else
      let afterCalls := (callsByTurn.drop k).flatten
      e.must_call_tools_after_approval.foldl (fun acc t =>
        if t ∈ afterCalls then acc
        else (acc.1 * 0, acc.2 ++ [s!"Missing required tool call after approval: {t}"])) acc
  | none => acc

/-- The trajectory checks of `_grade_test`, threading the running score and
the accumulated details, in source order: `must_call_tools`,
`must_not_call_tools`, `should_call_tools`, the approval gate, and
`must_call_tools_after_approval`. -/
def trajChecks (e : Expectation) (allCalls : List String)
    (callsByTurn : List (List String)) (acc : ℚ × List String) : ℚ × List String :=
  mustAfterApprovalCheck e callsByTurn
    (approvalGateCheck e callsByTurn
      (shouldCallCheck e.should_call_tools allCalls
        (mustNotCallCheck e.must_not_call_tools allCalls
          (mustCallCheck e.must_call_tools allCalls acc))))

/-- The `must_include_any` loop: a hard zero for every keyword group with no
case-insensitive hit in the final text. -/
def mustIncludeAnyCheck (groups : List (List String)) (finalText : String)
    (acc : ℚ × List String) : ℚ × List String :=
  groups.foldl (fun acc group =>
    if containsAny finalText group then acc
    else (acc.1 * 0, acc.2 ++ [s!"Missing required content (any of): {group}"])) acc

/-- The `should_include_any` loop: a soft ×0.9 per missed group. -/
def shouldIncludeAnyCheck (groups : List (List String)) (finalText : String)
    (acc : ℚ × List String) : ℚ × List String :=
  groups.foldl (fun acc group =>
    if containsAny finalText group then acc
    else (acc.1 * 0.9, acc.2 ++ [s!"Missing recommended content (any of): {group}"])) acc

/-- The `must_include_any_after_approval` block: evaluated only when
`approval_turn` is set, the group list is non-empty and the turn count
exceeds `approval_turn`; the checked text is `turns[-1].assistant_text`. -/
def mustIncludeAfterApprovalCheck (e : Expectation) (turns : List TurnResult)
    (acc : ℚ × List String) : ℚ × List String :=
  match e.approval_turn with
  | some k =>
    if !e.must_include_any_after_approval.isEmpty && turns.length > k then
      let afterText := finalTextOf turns
      e.must_include_any_after_approval.foldl (fun acc group =>
        if containsAny afterText group then acc
        else (acc.1 * 0, acc.2 ++ [s!"Missing required content after approval (any of): {group}"])) acc
    else acc
  | none => acc

/-- The `must_ask_questions` block: a hard zero when the final text holds
fewer question marks than the configured minimum. -/
def mustAskQuestionsCheck (q? : Option QuestionSpec) (finalText : String)
    (acc : ℚ × List String) : ℚ × List String :=
  match q? with
  | some q =>
    let minq := q.min_questions
    let qCount := countQuestions finalText
    if (qCount : Int) < minq then
      (acc.1 * 0, acc.2 ++ [s!"Expected at least {minq} question(s), got {qCount}"])
    else acc
  | none => acc

/-- The `should_ask_questions` block: the soft (×0.9) analogue. -/
def shouldAskQuestionsCheck (q? : Option QuestionSpec) (finalText : String)
    (acc : ℚ × List String) : ℚ × List String :=
  match q? with
  | some q =>
    let minq := q.min_questions
    let qCount := countQuestions finalText
    if (qCount : Int) < minq then
      (acc.1 * 0.9, acc.2 ++ [s!"Recommended at least {minq} question(s), got {qCount}"])
    else acc
  | none => acc

/-- The content checks of `_grade_test`, in source order: `must_include_any`,
`should_include_any`, `must_include_any_after_approval`,
`must_ask_questions`, `should_ask_questions`. -/
def contentChecks (e : Expectation) (finalText : String)
    (turns : List TurnResult) (acc : ℚ × List String) : ℚ × List String :=
  shouldAskQuestionsCheck e.should_ask_questions finalText
    (mustAskQuestionsCheck e.must_ask_questions finalText
      (mustIncludeAfterApprovalCheck e turns
        (shouldIncludeAnyCheck e.should_include_any finalText
          (mustIncludeAnyCheck e.must_include_any finalText acc))))

/-- The safety check of `_grade_test`: when `must_not_include_patterns` is
non-empty, evaluate `_match_any_regex` (which may raise on an invalid
pattern). -/
def safetyChecks (e : Expectation) (finalText : String)
    (acc : ℚ × List String) : Except EvalError (ℚ × List String) :=
  if e.must_not_include_patterns.isEmpty then .ok acc
  else
    match matchAnyRegex finalText e.must_not_include_patterns with
    | .error err => .error err
    | .ok true =>
      .ok (acc.1 * 0, acc.2 ++ ["Safety violation: matched disallowed pattern (requesting sensitive info)"])
    | .ok false => .ok acc

/-- The style check of `_grade_test`. -/
def styleChecks (e : Expectation) (finalText : String)
    (acc : ℚ × List String) : ℚ × List String :=
  if e.style.prefer_numbered_steps && !hasNumberedSteps finalText then
    (acc.1 * 0.9, acc.2 ++ ["Style: preferred numbered steps but none detected"])
  else acc

/-- The grader `_grade_test(test, turns, weights)`: the four sub-scores each start at
1.0 and are updated by the checks in source order (trajectory, content,
safety, style); the weighted total and the grade record close the
computation.  The regex error of an invalid safety pattern propagates. -/
def gradeTest (test : TestCase) (turns : List TurnResult) (w : Weights) :
    Except EvalError GradeResult :=
  let e := test.expect
  let finalText := finalTextOf turns
  let allCalls := turns.flatMap TurnResult.tool_calls
  let callsByTurn := turns.map TurnResult.tool_calls
  let tAcc := trajChecks e allCalls callsByTurn (1, [])
  let cAcc := contentChecks e finalText turns (1, tAcc.2)
  match safetyChecks e finalText (1, cAcc.2) with
  | .error err => .error err
  | .ok sAcc =>
    let stAcc := styleChecks e finalText (1, sAcc.2)
    let total := tAcc.1 * w.trajectory + cAcc.1 * w.content +
      sAcc.1 * w.safety + stAcc.1 * w.style
    .ok { name := test.name, description := test.description,
          scores := { trajectory := tAcc.1, content := cAcc.1, safety := sAcc.1,
                      style := stAcc.1, total := total },
          details := stAcc.2, final_text := finalText, tool_calls := allCalls }

/-- The agent transport (`requests` + the ADK HTTP API), as an oracle:
session creation per scenario index, and the event list (or transport
error) per (scenario index, turn index).  `_create_session` /
`_run_turn` raise on connection failure, non-success status or timeout
(`raise_for_status`), modelled by the `Except.error` results. -/
structure Transport where
  createSession : Nat → Except EvalError Unit
  turnEvents : Nat → Nat → Except EvalError (List Json)

/-- The function `_run_turn(...)`: one remote call; on success the event extractor
packages the `TurnResult`. -/
def runTurn (tr : Transport) (scenario turn : Nat) (text : String) :
    Except EvalError TurnResult :=
  match tr.turnEvents scenario turn with
  | .error e => .error e
  | .ok events =>
    let extracted := extractFunctionCallsAndResponses events
    .ok { user := text, assistant_text := lastAssistantText events,
          tool_calls := extracted.1, tool_responses := extracted.2,
          raw_events := events }

/-- The turn loop of `main` for one scenario: turns strictly in order, the
first transport error aborting the loop. -/
def runTurns (tr : Transport) (scenario : Nat) :
    Nat → List String → Except EvalError (List TurnResult)
  | _, [] => .ok []
  | turn, u :: rest =>
    match runTurn tr scenario turn u with
    | .error e => .error e
    | .ok r =>
      match runTurns tr scenario (turn + 1) rest with
      | .error e => .error e
      | .ok rs => .ok (r :: rs)

/-- One iteration of the scenario loop of `main`: create the scenario's
fresh session, drive all turns, grade.  There is no exception handler, so
every error propagates. -/
def runScenario (tr : Transport) (scenario : Nat) (t : TestCase) (w : Weights) :
    Except EvalError GradeResult :=
  match tr.createSession scenario with
  | .error e => .error e
  | .ok _ =>
    match runTurns tr scenario 0 t.turns with
    | .error e => .error e
    | .ok turnResults => gradeTest t turnResults w

/-- The scenario loop of `main`, scenario index threaded: an error from any
scenario aborts the whole loop (the source wraps the loop body in no
`try`/`except`). -/
def runAllScenarios (tr : Transport) (w : Weights) :
    Nat → List TestCase → Except EvalError (List GradeResult)
  | _, [] => .ok []
  | i, t :: rest =>
    match runScenario tr i t w with
    | .error e => .error e
    | .ok g =>
      match runAllScenarios tr w (i + 1) rest with
      | .error e => .error e
      | .ok gs => .ok (g :: gs)

/-- The pass threshold of `main` (`threshold = 0.70`). -/
def passThreshold : ℚ := 0.70

/-- The run summary persisted by `main`. -/
structure RunSummary where
  appName : String
  apiBase : String
  threshold : ℚ
  passed : Nat
  total : Nat
  pass_rate : ℚ
  results : List GradeResult
deriving DecidableEq

/-- The parsed `eval/evalset.json` file, before the defaults of `main` are
applied (`none` = key absent). -/
structure SpecFile where
  appName : String
  apiBase : Option String := none
  weights : Option Weights := none
  tests : List TestCase := []
  reportPath : Option String := none

/-- The resolved run configuration. -/
structure RunConfig where
  appName : String
  apiBase : String
  weights : Weights
  tests : List TestCase
  reportPath : String

/-- The load step of `main`: JSON parse plus defaulting
(`spec.get("apiBase", "http://localhost:8000").rstrip("/")`, the default
weights, `spec.get("reportPath", "eval/report.json")`).  No field of any
test's expectation is inspected here; in particular the regex patterns are
passed through untouched. -/
def loadConfig (s : SpecFile) : RunConfig :=
  { appName := s.appName,
    apiBase := (s.apiBase.getD "http://localhost:8000").dropRightWhile (· = '/'),
    weights := s.weights.getD defaultWeights,
    tests := s.tests,
    reportPath := s.reportPath.getD "eval/report.json" }

/-- The whole of `main` after loading: run every scenario, count passes
against the threshold, build the summary.  Any uncaught error (transport
or regex) aborts the run with no summary written. -/
def runMain (tr : Transport) (c : RunConfig) : Except EvalError RunSummary :=
  match runAllScenarios tr c.weights 0 c.tests with
  | .error e => .error e
  | .ok results =>
    let passed := (results.filter fun g => passThreshold ≤ g.scores.total).length
    .ok { appName := c.appName, apiBase := c.apiBase, threshold := passThreshold,
          passed := passed, total := results.length,
          pass_rate := (passed : ℚ) / (max 1 results.length : ℚ),
          results := results }

/-- One part's raw `text` value when it is a string (no non-blank filter). -/
def rawTextOfPart (p : Json) : Option String :=
  match jGet p "text" with
  | some (.str s) => some s
  | _ => none

/-- All string-valued `text` parts of one event, in part order (the raw
text values, before the non-blank filter). -/
def partTexts (ev : Json) : List String :=
  (partsOf ev).filterMap rawTextOfPart

/-- The specification's description of the final-response selection (spec
§4.1): scan events in reverse order and, within each event, its parts in
original order; return the first text value with non-blank content; if
none is found, return the empty string. -/
def assistantTextSpec (events : List Json) : String :=
  ((((events.reverse.map partTexts).flatten).filter nonBlank).head?).getD ""

/-- The structured scan finds name `n` at part `p` under the single key
`key`: the part's entry under `key` is a truthy dict whose `name` field is
the string `n`. -/
def foundVia (key : String) (p : Json) (n : String) : Prop :=
  ∃ fc, jGet p key = some (Json.obj fc) ∧ (Json.obj fc).truthy = true ∧
    lookupField fc "name" = some (Json.str n)

/-! Concrete inputs used by the closed witness and counterexample theorems. -/

/-- A scenario gating the `escalate` tool behind approval at turn 1. -/
def tc1 : TestCase :=
  { expect := { approval_turn := some 1,
                must_not_call_tools_before_approval := ["escalate"] } }

/-- Two turns in which `escalate` fires already at turn 0. -/
def turns1 : List TurnResult :=
  [{ user := "please escalate", assistant_text := "done",
     tool_calls := ["escalate"], tool_responses := ["escalate"], raw_events := [] },
   { user := "ok", assistant_text := "ok",
     tool_calls := [], tool_responses := [], raw_events := [] }]

/-- The grade of an unconstrained scenario with no turns under default
weights. -/
def g0 : GradeResult :=
  { name := "", description := "",
    scores := { trajectory := 1, content := 1, safety := 1, style := 1, total := 1 },
    details := [], final_text := "", tool_calls := [] }

/-- A transport whose session creation fails for scenario 0 only. -/
def tr2 : Transport :=
  { createSession := fun i => if i = 0 then .error (.transport 0 none) else .ok (),
    turnEvents := fun _ _ => .ok [] }

/-- Two unconstrained scenarios. -/
def c2 : RunConfig :=
  { appName := "helpdesk", apiBase := "http://localhost:8000",
    weights := defaultWeights, tests := [{}, {}], reportPath := "eval/report.json" }

/-- A transport whose first scenario fails at its first turn. -/
def tr2b : Transport :=
  { createSession := fun _ => .ok (),
    turnEvents := fun s t => if s = 0 then .error (.transport 0 (some t)) else .ok [] }

/-- A one-turn scenario followed by an unconstrained one. -/
def c2b : RunConfig :=
  { appName := "helpdesk", apiBase := "http://localhost:8000",
    weights := defaultWeights, tests := [{ turns := ["hello"] }, {}],
    reportPath := "eval/report.json" }

/-- One event carrying a single `functionCall` part and no responses. -/
def evC3 : List Json :=
  [Json.obj [("content", Json.obj [("parts", Json.arr
    [Json.obj [("functionCall", Json.obj [("name", Json.str "kb_search")])]])])]]

/-- A pattern string that does not compile (`re.error` on use). -/
def badPat : RePattern :=
  { valid := false, search := fun _ => false }

/-- A scenario whose safety expectation holds an invalid regex. -/
def t5 : TestCase :=
  { name := "t5", expect := { must_not_include_patterns := [badPat] } }

/-- A spec file containing only the invalid-regex scenario. -/
def spec5 : SpecFile :=
  { appName := "helpdesk", tests := [t5] }

/-- A transport that always succeeds and returns no events. -/
def tr5 : Transport :=
  { createSession := fun _ => .ok (), turnEvents := fun _ _ => .ok [] }

/-- An event whose only part carries the text "hello". -/
def evC6a : Json :=
  Json.obj [("content", Json.obj [("parts", Json.arr [Json.obj [("text", Json.str "hello")]])])]

/-- An event carrying only a tool invocation, no text. -/
def evC6b : Json :=
  Json.obj [("content", Json.obj [("parts", Json.arr
    [Json.obj [("functionCall", Json.obj [("name", Json.str "t")])]])])]

/-- An event with no content at all. -/
def evC6c : Json :=
  Json.obj []

/-- Three events whose only non-blank text sits in the third-to-last one. -/
def evC6 : List Json := [evC6a, evC6b, evC6c]

/-- A scenario recommending two tools. -/
def t7 : TestCase :=
  { expect := { should_call_tools := ["kb_search", "create_ticket"] } }

/-- A weight mapping summing to 2. -/
def w8 : Weights :=
  { trajectory := 2, content := 0, safety := 0, style := 0 }

/-- The grade of an unconstrained scenario with no turns under `w8`. -/
def g8 : GradeResult :=
  { name := "", description := "",
    scores := { trajectory := 1, content := 1, safety := 1, style := 1, total := 2 },
    details := [], final_text := "", tool_calls := [] }

/-- A scenario whose only constraint is the invalid safety pattern. -/
def t9c : TestCase :=
  { expect := { must_not_include_patterns := [badPat] } }

/-- A scenario with a required tool and a required keyword group. -/
def t9w : TestCase :=
  { expect := { must_call_tools := ["kb_search"], must_include_any := [["reset"]] } }

/-- A part holding a `functionCall` descriptor named `kb_search`. -/
def pC10 : Json :=
  Json.obj [("functionCall", Json.obj [("name", Json.str "kb_search")])]

/-- One event whose single part is `pC10`; it holds no responses. -/
def evC10 : List Json :=
  [Json.obj [("content", Json.obj [("parts", Json.arr [pC10])])]]


/-! IEEE binary64 model, used for the numerical claim about the soft
penalty.  The source multiplies Python floats (IEEE binary64 doubles);
the rational-valued grader above models that arithmetic exactly only
where the factors are 0.0 and 1.0.  The model below is faithful to the
double rounding itself. -/

/-- Fuel-driven floor base-2 logarithm (structural, so it evaluates in the
kernel; `natLog2 n` calls it with fuel `n`, always enough). -/
def log2fuel : Nat → Nat → Nat
  | 0, _ => 0
  | fuel + 1, n => if n ≥ 2 then log2fuel fuel (n / 2) + 1 else 0

/-- Floor of the base-2 logarithm of a positive natural number. -/
def natLog2 (n : Nat) : Nat := log2fuel n n

/-- Round the fraction `N / D` to the nearest integer, ties to even — the
IEEE default rounding. -/
def roundNearestEven (N D : Nat) : Nat :=
  let f := N / D
  let r := N % D
  if 2 * r > D then f + 1
  else if 2 * r < D then f
  else if f % 2 = 0 then f else f + 1

/-- Whether `n / d ≥ 2 ^ g`, with integer `g`. -/
def qGePow2 (n d : Nat) (g : Int) : Bool :=
  if 0 ≤ g then d * 2 ^ g.toNat ≤ n else d ≤ n * 2 ^ (-g).toNat

/-- An IEEE binary64 value in the finite normal range, as an integer
significand times a power of two (`m * 2 ^ e`).  Overflow, subnormals,
infinities and NaN are outside the grader's score range and not
modelled.  After a rounding carry the significand may be `2 ^ 53`
(an unnormalized form of the same value). -/
structure B64 where
  m : Int
  e : Int
deriving DecidableEq

/-- The correctly rounded (nearest, ties to even) double of `n / d` — how
Python turns the decimal literal `0.85` (= 85/100) into a float. -/
def B64.ofFrac (n d : Nat) : B64 :=
  if n = 0 then ⟨0, 0⟩
  else
    let g : Int := (natLog2 n : Int) - (natLog2 d : Int)
    let e : Int := if qGePow2 n d g then g else g - 1
    let shift : Int := 52 - e
    let N := if 0 ≤ shift then n * 2 ^ shift.toNat else n
    let D := if 0 ≤ shift then d else d * 2 ^ (-shift).toNat
    ⟨(roundNearestEven N D : Int), e - 52⟩

/-- The Python float literal `1.0`. -/
def B64.one : B64 := ⟨1, 0⟩

/-- The Python float literal `0.0`. -/
def B64.zero : B64 := ⟨0, 0⟩

/-- IEEE double multiplication: the exact product, rounded to 53
significant bits, nearest-even (exact when it already fits). -/
def B64.mul (x y : B64) : B64 :=
  let p := x.m * y.m
  let pn := p.natAbs
  let L := natLog2 pn
  if L ≤ 52 then ⟨p, x.e + y.e⟩
  else
    let shift := L - 52
    let sgn : Int := if p < 0 then -1 else 1
    ⟨sgn * (roundNearestEven pn (2 ^ shift) : Int), x.e + y.e + shift⟩

/-- The exact rational value of a double. -/
def B64.val (x : B64) : ℚ :=
  if 0 ≤ x.e then (x.m : ℚ) * 2 ^ x.e.toNat else (x.m : ℚ) / 2 ^ (-x.e).toNat

/-- The trajectory checks of `_grade_test` (lines 113-149) with the score
arithmetic carried out in binary64, exactly as Python does: `traj = 1.0`,
then `traj *= 0.0` on hard violations and `traj *= 0.85` per missed
recommended tool, in source order.  Only the score is tracked (the detail
strings do not feed back into any score). -/
def trajChecksB64 (e : Expectation) (allCalls : List String)
    (callsByTurn : List (List String)) (s : B64) : B64 :=
  let s := e.must_call_tools.foldl (fun s tool =>
    if tool ∈ allCalls then s else B64.mul s B64.zero) s
  let s := e.must_not_call_tools.foldl (fun s tool =>
    if tool ∈ allCalls then B64.mul s B64.zero else s) s
  let s := e.should_call_tools.foldl (fun s tool =>
    if tool ∈ allCalls then s else B64.mul s (B64.ofFrac 85 100)) s
  let s :=
    match e.approval_turn with
    | some k =>
      if e.must_not_call_tools_before_approval.isEmpty then s
      else
        e.must_not_call_tools_before_approval.foldl (fun s t =>
          (List.range (min k callsByTurn.length)).foldl (fun s i =>
            if t ∈ callsByTurn.getD i [] then B64.mul s B64.zero else s) s) s
    | none => s
  match e.approval_turn with
  | some k =>
    if e.must_call_tools_after_approval.isEmpty then s
    else
      let afterCalls := (callsByTurn.drop k).flatten
      e.must_call_tools_after_approval.foldl (fun s t =>
        if t ∈ afterCalls then s else B64.mul s B64.zero) s
  | none => s

/-- One turn that called only an unrelated tool. -/
def turnsC7 : List TurnResult :=
  [{ user := "hi", assistant_text := "ok",
     tool_calls := ["kb_lookup"], tool_responses := ["kb_lookup"], raw_events := [] }]


section FoldLemmas

/-- A `foldl` whose step preserves a predicate preserves it overall. -/
theorem foldl_preserve {α β : Type} (P : β → Prop) (f : β → α → β)
    (hf : ∀ b a, P b → P (f b a)) :
    ∀ (l : List α) (b : β), P b → P (l.foldl f b) := by
  intro l
  induction l with
  | nil => intro b hb; exact hb
  | cons a l ih => intro b hb; exact ih (f b a) (hf b a hb)

/-- A `foldl` each of whose steps fixes the accumulator is the identity. -/
theorem foldl_id {α β : Type} (f : β → α → β) (l : List α)
    (hf : ∀ b a, a ∈ l → f b a = b) : ∀ b, l.foldl f b = b := by
  induction l with
  | nil => intro b; rfl
  | cons a l ih =>
    intro b
    rw [List.foldl_cons, hf b a (List.mem_cons_self a l)]
    exact ih (fun b x hx => hf b x (List.mem_cons_of_mem a hx)) b

/-- Multiplying a nonnegative score by a factor in `[0, 1]` keeps it
nonnegative and does not increase it. -/
theorem mul_factor_bounds {s c : ℚ} (hs : 0 ≤ s) (h0 : 0 ≤ c) (h1 : c ≤ 1) :
    0 ≤ s * c ∧ s * c ≤ s := by
  constructor
  · exact mul_nonneg hs h0
  · calc s * c ≤ s * 1 := mul_le_mul_of_nonneg_left h1 hs
    _ = s := mul_one s

/-- A score-and-details `foldl` whose step keeps the score in `[0, old]`
keeps the result in `[0, initial]`. -/
theorem foldl_score_bounds {α : Type}
    (f : ℚ × List String → α → ℚ × List String)
    (hinv : ∀ b a, 0 ≤ b.1 → 0 ≤ (f b a).1 ∧ (f b a).1 ≤ b.1)
    (l : List α) (b : ℚ × List String) (hb : 0 ≤ b.1) :
    0 ≤ (l.foldl f b).1 ∧ (l.foldl f b).1 ≤ b.1 :=
  foldl_preserve (fun x => 0 ≤ x.1 ∧ x.1 ≤ b.1) f
    (fun x a hx => ⟨(hinv x a hx.1).1, le_trans (hinv x a hx.1).2 hx.2⟩)
    l b ⟨hb, le_refl b.1⟩

/-- Under the same step invariant, a zero score stays zero through the fold. -/
theorem foldl_score_zero {α : Type}
    (f : ℚ × List String → α → ℚ × List String)
    (hinv : ∀ b a, 0 ≤ b.1 → 0 ≤ (f b a).1 ∧ (f b a).1 ≤ b.1)
    (l : List α) (b : ℚ × List String) (hb : b.1 = 0) :
    (l.foldl f b).1 = 0 := by
  have h := foldl_score_bounds f hinv l b (le_of_eq hb.symm)
  rw [hb] at h
  exact le_antisymm h.2 h.1

/-- Under the step invariant, one step that zeroes the score on a member of
the list zeroes the whole fold. -/
theorem foldl_score_hit {α : Type}
    (f : ℚ × List String → α → ℚ × List String)
    (hinv : ∀ b a, 0 ≤ b.1 → 0 ≤ (f b a).1 ∧ (f b a).1 ≤ b.1)
    (a0 : α) (l : List α) (hmem : a0 ∈ l)
    (hhit : ∀ b, (f b a0).1 = 0)
    (b : ℚ × List String) :
    (l.foldl f b).1 = 0 := by
  induction l generalizing b with
  | nil => cases hmem
  | cons a l ih =>
    rw [List.foldl_cons]
    rcases List.mem_cons.mp hmem with h | h
    · subst h
      exact foldl_score_zero f hinv l (f b a0) (hhit b)
    · exact ih h (f b a)

end FoldLemmas

section StageBounds

theorem mustCallCheck_bounds (mc ac : List String) (acc : ℚ × List String)
    (h : 0 ≤ acc.1) :
    0 ≤ (mustCallCheck mc ac acc).1 ∧ (mustCallCheck mc ac acc).1 ≤ acc.1 := by
  unfold mustCallCheck
  refine foldl_score_bounds _ ?_ _ _ h
  intro b a hb
  dsimp only
  split
  · exact ⟨hb, le_refl _⟩
  · exact mul_factor_bounds hb (by norm_num) (by norm_num)

theorem mustNotCallCheck_bounds (mn ac : List String) (acc : ℚ × List String)
    (h : 0 ≤ acc.1) :
    0 ≤ (mustNotCallCheck mn ac acc).1 ∧ (mustNotCallCheck mn ac acc).1 ≤ acc.1 := by
  unfold mustNotCallCheck
  refine foldl_score_bounds _ ?_ _ _ h
  intro b a hb
  dsimp only
  split
  · exact mul_factor_bounds hb (by norm_num) (by norm_num)
  · exact ⟨hb, le_refl _⟩

theorem shouldCallCheck_bounds (sc ac : List String) (acc : ℚ × List String)
    (h : 0 ≤ acc.1) :
    0 ≤ (shouldCallCheck sc ac acc).1 ∧ (shouldCallCheck sc ac acc).1 ≤ acc.1 := by
  unfold shouldCallCheck
  refine foldl_score_bounds _ ?_ _ _ h
  intro b a hb
  dsimp only
  split
  · exact ⟨hb, le_refl _⟩
  · exact mul_factor_bounds hb (by norm_num) (by norm_num)

theorem approvalGateCheck_bounds (e : Expectation) (cbt : List (List String))
    (acc : ℚ × List String) (h : 0 ≤ acc.1) :
    0 ≤ (approvalGateCheck e cbt acc).1 ∧ (approvalGateCheck e cbt acc).1 ≤ acc.1 := by
  unfold approvalGateCheck
  split
  · split
    · exact ⟨h, le_refl _⟩
    · refine foldl_score_bounds _ ?_ _ _ h
      intro b a hb
      dsimp only
      refine foldl_score_bounds _ ?_ _ _ hb
      intro b' i hb'
      dsimp only
      split
      · exact mul_factor_bounds hb' (by norm_num) (by norm_num)
      · exact ⟨hb', le_refl _⟩
  · exact ⟨h, le_refl _⟩

theorem mustAfterApprovalCheck_bounds (e : Expectation) (cbt : List (List String))
    (acc : ℚ × List String) (h : 0 ≤ acc.1) :
    0 ≤ (mustAfterApprovalCheck e cbt acc).1 ∧ (mustAfterApprovalCheck e cbt acc).1 ≤ acc.1 := by
  unfold mustAfterApprovalCheck
  split
  · split
    · exact ⟨h, le_refl _⟩
    · refine foldl_score_bounds _ ?_ _ _ h
      intro b a hb
      dsimp only
      split
      · exact ⟨hb, le_refl _⟩
      · exact mul_factor_bounds hb (by norm_num) (by norm_num)
  · exact ⟨h, le_refl _⟩

theorem trajChecks_bounds (e : Expectation) (ac : List String)
    (cbt : List (List String)) (acc : ℚ × List String) (h : 0 ≤ acc.1) :
    0 ≤ (trajChecks e ac cbt acc).1 ∧ (trajChecks e ac cbt acc).1 ≤ acc.1 := by
  unfold trajChecks
  have h1 := mustCallCheck_bounds e.must_call_tools ac acc h
  have h2 := mustNotCallCheck_bounds e.must_not_call_tools ac _ h1.1
  have h3 := shouldCallCheck_bounds e.should_call_tools ac _ h2.1
  have h4 := approvalGateCheck_bounds e cbt _ h3.1
  have h5 := mustAfterApprovalCheck_bounds e cbt _ h4.1
  exact ⟨h5.1, le_trans h5.2 (le_trans h4.2 (le_trans h3.2 (le_trans h2.2 h1.2)))⟩

theorem mustIncludeAnyCheck_bounds (groups : List (List String)) (ft : String)
    (acc : ℚ × List String) (h : 0 ≤ acc.1) :
    0 ≤ (mustIncludeAnyCheck groups ft acc).1 ∧ (mustIncludeAnyCheck groups ft acc).1 ≤ acc.1 := by
  unfold mustIncludeAnyCheck
  refine foldl_score_bounds _ ?_ _ _ h
  intro b a hb
  dsimp only
  split
  · exact ⟨hb, le_refl _⟩
  · exact mul_factor_bounds hb (by norm_num) (by norm_num)

theorem shouldIncludeAnyCheck_bounds (groups : List (List String)) (ft : String)
    (acc : ℚ × List String) (h : 0 ≤ acc.1) :
    0 ≤ (shouldIncludeAnyCheck groups ft acc).1 ∧ (shouldIncludeAnyCheck groups ft acc).1 ≤ acc.1 := by
  unfold shouldIncludeAnyCheck
  refine foldl_score_bounds _ ?_ _ _ h
  intro b a hb
  dsimp only
  split
  · exact ⟨hb, le_refl _⟩
  · exact mul_factor_bounds hb (by norm_num) (by norm_num)

theorem mustIncludeAfterApprovalCheck_bounds (e : Expectation) (turns : List TurnResult)
    (acc : ℚ × List String) (h : 0 ≤ acc.1) :
    0 ≤ (mustIncludeAfterApprovalCheck e turns acc).1 ∧
      (mustIncludeAfterApprovalCheck e turns acc).1 ≤ acc.1 := by
  unfold mustIncludeAfterApprovalCheck
  split
  · split
    · refine foldl_score_bounds _ ?_ _ _ h
      intro b a hb
      dsimp only
      split
      · exact ⟨hb, le_refl _⟩
      · exact mul_factor_bounds hb (by norm_num) (by norm_num)
    · exact ⟨h, le_refl _⟩
  · exact ⟨h, le_refl _⟩

theorem mustAskQuestionsCheck_bounds (q? : Option QuestionSpec) (ft : String)
    (acc : ℚ × List String) (h : 0 ≤ acc.1) :
    0 ≤ (mustAskQuestionsCheck q? ft acc).1 ∧ (mustAskQuestionsCheck q? ft acc).1 ≤ acc.1 := by
  unfold mustAskQuestionsCheck
  split
  · dsimp only
    split
    · exact mul_factor_bounds h (by norm_num) (by norm_num)
    · exact ⟨h, le_refl _⟩
  · exact ⟨h, le_refl _⟩

theorem shouldAskQuestionsCheck_bounds (q? : Option QuestionSpec) (ft : String)
    (acc : ℚ × List String) (h : 0 ≤ acc.1) :
    0 ≤ (shouldAskQuestionsCheck q? ft acc).1 ∧ (shouldAskQuestionsCheck q? ft acc).1 ≤ acc.1 := by
  unfold shouldAskQuestionsCheck
  split
  · dsimp only
    split
    · exact mul_factor_bounds h (by norm_num) (by norm_num)
    · exact ⟨h, le_refl _⟩
  · exact ⟨h, le_refl _⟩

theorem contentChecks_bounds (e : Expectation) (ft : String) (turns : List TurnResult)
    (acc : ℚ × List String) (h : 0 ≤ acc.1) :
    0 ≤ (contentChecks e ft turns acc).1 ∧ (contentChecks e ft turns acc).1 ≤ acc.1 := by
  unfold contentChecks
  have h1 := mustIncludeAnyCheck_bounds e.must_include_any ft acc h
  have h2 := shouldIncludeAnyCheck_bounds e.should_include_any ft _ h1.1
  have h3 := mustIncludeAfterApprovalCheck_bounds e turns _ h2.1
  have h4 := mustAskQuestionsCheck_bounds e.must_ask_questions ft _ h3.1
  have h5 := shouldAskQuestionsCheck_bounds e.should_ask_questions ft _ h4.1
  exact ⟨h5.1, le_trans h5.2 (le_trans h4.2 (le_trans h3.2 (le_trans h2.2 h1.2)))⟩

theorem safetyChecks_bounds (e : Expectation) (ft : String)
    (acc out : ℚ × List String) (h : 0 ≤ acc.1)
    (hok : safetyChecks e ft acc = .ok out) :
    0 ≤ out.1 ∧ out.1 ≤ acc.1 := by
  unfold safetyChecks at hok
  split at hok
  · cases hok
    exact ⟨h, le_refl _⟩
  · split at hok
    · cases hok
    · cases hok
      exact mul_factor_bounds h (by norm_num) (by norm_num)
    · cases hok
      exact ⟨h, le_refl _⟩

theorem styleChecks_bounds (e : Expectation) (ft : String)
    (acc : ℚ × List String) (h : 0 ≤ acc.1) :
    0 ≤ (styleChecks e ft acc).1 ∧ (styleChecks e ft acc).1 ≤ acc.1 := by
  unfold styleChecks
  split
  · exact mul_factor_bounds h (by norm_num) (by norm_num)
  · exact ⟨h, le_refl _⟩

end StageBounds

/-- Unfolding lemma for a successful grade: every reported field is the
value of the corresponding check chain. -/
theorem gradeTest_ok_spec (test : TestCase) (turns : List TurnResult) (w : Weights)
    (r : GradeResult) (h : gradeTest test turns w = .ok r) :
    r.scores.trajectory = (trajChecks test.expect (turns.flatMap TurnResult.tool_calls)
      (turns.map TurnResult.tool_calls) (1, [])).1 ∧
    r.scores.content = (contentChecks test.expect (finalTextOf turns) turns
      (1, (trajChecks test.expect (turns.flatMap TurnResult.tool_calls)
        (turns.map TurnResult.tool_calls) (1, [])).2)).1 ∧
    (∃ sAcc, safetyChecks test.expect (finalTextOf turns)
        (1, (contentChecks test.expect (finalTextOf turns) turns
          (1, (trajChecks test.expect (turns.flatMap TurnResult.tool_calls)
            (turns.map TurnResult.tool_calls) (1, [])).2)).2) = .ok sAcc ∧
      r.scores.safety = sAcc.1 ∧
      r.scores.style = (styleChecks test.expect (finalTextOf turns) (1, sAcc.2)).1) ∧
    r.scores.total = r.scores.trajectory * w.trajectory + r.scores.content * w.content +
      r.scores.safety * w.safety + r.scores.style * w.style ∧
    r.final_text = finalTextOf turns ∧
    r.tool_calls = turns.flatMap TurnResult.tool_calls := by
  unfold gradeTest at h
  dsimp only at h
  split at h
  · exact absurd h (by simp)
  · rename_i sAcc hs
    cases h
    exact ⟨rfl, rfl, ⟨sAcc, hs, rfl, rfl⟩, rfl, rfl, rfl⟩

/-- The approval gate is skipped when no tool is gated. -/
theorem approvalGateCheck_of_empty (e : Expectation) (cbt : List (List String))
    (acc : ℚ × List String) (h : e.must_not_call_tools_before_approval = []) :
    approvalGateCheck e cbt acc = acc := by
  unfold approvalGateCheck
  split
  · simp [h]
  · rfl

/-- The after-approval requirement is skipped when its list is empty. -/
theorem mustAfterApprovalCheck_of_empty (e : Expectation) (cbt : List (List String))
    (acc : ℚ × List String) (h : e.must_call_tools_after_approval = []) :
    mustAfterApprovalCheck e cbt acc = acc := by
  unfold mustAfterApprovalCheck
  split
  · simp [h]
  · rfl

/-- C4: grading any transcript against an expectation that contains no keys,
under the default weights, yields trajectory = content = safety = style =
1.0 and total = 1.0 (along with no details). -/
theorem emptyExpectationPerfectScore (nm ds : String) (tus : List String)
    (turns : List TurnResult) :
    gradeTest { name := nm, description := ds, turns := tus, expect := {} } turns
      defaultWeights =
    Except.ok { name := nm, description := ds,
                scores := { trajectory := 1, content := 1, safety := 1, style := 1,
                            total := 1 },
                details := [], final_text := finalTextOf turns,
                tool_calls := turns.flatMap TurnResult.tool_calls } := by
  unfold gradeTest
  dsimp only
  norm_num [trajChecks, contentChecks, mustCallCheck, mustNotCallCheck, shouldCallCheck,
    approvalGateCheck, mustAfterApprovalCheck, mustIncludeAnyCheck, shouldIncludeAnyCheck,
    mustIncludeAfterApprovalCheck, mustAskQuestionsCheck, shouldAskQuestionsCheck,
    safetyChecks, styleChecks, defaultWeights]

/-- Exact-rational counterpart of the soft-penalty compounding: in the
rational-valued grader the two missed recommended tools give exactly
1 × 0.85 × 0.85 = 0.7225 (the real-arithmetic reading; the binary64
value the program computes is settled separately below). -/
theorem gradeTrajectoryRatTwoMissed (t : TestCase) (turns : List TurnResult)
    (w : Weights) (a b : String)
    (hsc : t.expect.should_call_tools = [a, b])
    (hmc : t.expect.must_call_tools = [])
    (hmn : t.expect.must_not_call_tools = [])
    (hgate : t.expect.must_not_call_tools_before_approval = [])
    (haft : t.expect.must_call_tools_after_approval = [])
    (ha : a ∉ turns.flatMap TurnResult.tool_calls)
    (hb : b ∉ turns.flatMap TurnResult.tool_calls)
    (r : GradeResult) (h : gradeTest t turns w = Except.ok r) :
    r.scores.trajectory = 0.7225 := by
  obtain ⟨htraj, -, -, -, -, -⟩ := gradeTest_ok_spec t turns w r h
  rw [htraj]
  unfold trajChecks
  rw [mustAfterApprovalCheck_of_empty _ _ _ haft, approvalGateCheck_of_empty _ _ _ hgate,
    hmc, hmn, hsc]
  simp only [mustCallCheck, mustNotCallCheck, List.foldl_nil]
  simp only [shouldCallCheck, List.foldl_cons, List.foldl_nil, if_neg ha, if_neg hb]
  norm_num

/-- A score squeezed between `0` and `0` is `0`. -/
theorem score_zero_squeeze {x : ℚ} (h1 : 0 ≤ x) (h2 : x ≤ 0) : x = 0 :=
  le_antisymm h2 h1

/-- The gate step invariant: one gated tool's inner sweep over the
pre-approval turns keeps a nonnegative score nonnegative and never
increases it. -/
theorem gateInnerSweep_bounds (cbt : List (List String)) (k : Nat) (t : String)
    (b : ℚ × List String) (hb : 0 ≤ b.1) :
    0 ≤ ((List.range (min k cbt.length)).foldl (fun acc i =>
      if t ∈ cbt.getD i [] then
        (acc.1 * 0, acc.2 ++ [s!"Approval gate violated: called {t} before approval (turn {i})"])
      else acc) b).1 ∧
    ((List.range (min k cbt.length)).foldl (fun acc i =>
      if t ∈ cbt.getD i [] then
        (acc.1 * 0, acc.2 ++ [s!"Approval gate violated: called {t} before approval (turn {i})"])
      else acc) b).1 ≤ b.1 := by
  refine foldl_score_bounds _ ?_ _ _ hb
  intro b' i hb'
  dsimp only
  split
  · exact mul_factor_bounds hb' (by norm_num) (by norm_num)
  · exact ⟨hb', le_refl _⟩

/-- C1: with `approval_turn = k` and `T` among the gated tools, a call of
`T` in any turn of index strictly less than `k` forces the reported
trajectory to 0.0; and (for the gated list `[T]`) when no pre-approval turn
calls `T`, the approval-gate check leaves the running trajectory
accumulator unchanged. -/
theorem approvalGateTrajectorySemantics (t : TestCase) (k : Nat) (T : String)
    (turns : List TurnResult) (w : Weights)
    (hk : t.expect.approval_turn = some k)
    (hT : T ∈ t.expect.must_not_call_tools_before_approval) :
    ((∃ i, i < k ∧ i < turns.length ∧ T ∈ (turns.map TurnResult.tool_calls).getD i []) →
      ∀ r, gradeTest t turns w = Except.ok r → r.scores.trajectory = 0) ∧
    (t.expect.must_not_call_tools_before_approval = [T] →
      (∀ i, i < k → i < turns.length → T ∉ (turns.map TurnResult.tool_calls).getD i []) →
      ∀ acc, approvalGateCheck t.expect (turns.map TurnResult.tool_calls) acc = acc) := by
  constructor
  · rintro ⟨i, hik, hilen, hmem⟩ r h
    obtain ⟨htraj, -, -, -, -, -⟩ := gradeTest_ok_spec t turns w r h
    rw [htraj]
    unfold trajChecks
    have hgate : ∀ acc, (approvalGateCheck t.expect (turns.map TurnResult.tool_calls) acc).1 = 0 := by
      intro acc
      unfold approvalGateCheck
      rw [hk]
      dsimp only
      have hne : ¬ t.expect.must_not_call_tools_before_approval.isEmpty = true := by
        rcases hl : t.expect.must_not_call_tools_before_approval with - | ⟨x, xs⟩
        · rw [hl] at hT; cases hT
        · simp
      rw [if_neg hne]
      refine foldl_score_hit _ ?_ T _ hT ?_ acc
      · intro b a hb
        exact gateInnerSweep_bounds (turns.map TurnResult.tool_calls) k a b hb
      · intro b
        refine foldl_score_hit _ ?_ i _ ?_ ?_ b
        · intro b' j hb'
          dsimp only
          split
          · exact mul_factor_bounds hb' (by norm_num) (by norm_num)
          · exact ⟨hb', le_refl _⟩
        · refine List.mem_range.mpr (lt_min hik ?_)
          rwa [List.length_map]
        · intro b'
          rw [if_pos hmem]
          exact mul_zero b'.1
    have h2 := mustAfterApprovalCheck_bounds t.expect (turns.map TurnResult.tool_calls)
      (approvalGateCheck t.expect (turns.map TurnResult.tool_calls)
        (shouldCallCheck t.expect.should_call_tools (turns.flatMap TurnResult.tool_calls)
          (mustNotCallCheck t.expect.must_not_call_tools (turns.flatMap TurnResult.tool_calls)
            (mustCallCheck t.expect.must_call_tools (turns.flatMap TurnResult.tool_calls) (1, [])))))
      (le_of_eq (hgate _).symm)
    refine score_zero_squeeze h2.1 ?_
    have h3 := h2.2
    rwa [hgate _] at h3
  · intro hlist hno acc
    unfold approvalGateCheck
    rw [hk]
    dsimp only
    rw [hlist]
    rw [if_neg (by simp)]
    refine foldl_id _ _ ?_ acc
    intro b x hx
    rw [List.mem_singleton] at hx
    subst hx
    refine foldl_id _ _ ?_ b
    intro b' i hi
    rw [List.mem_range] at hi
    have hik : i < k := lt_of_lt_of_le hi (min_le_left _ _)
    have hilen : i < turns.length := by
      have h4 := lt_of_lt_of_le hi (min_le_right _ _)
      rwa [List.length_map] at h4
    rw [if_neg (hno i hik hilen)]

/-- Closed instance of C1: `escalate` gated behind approval at turn 1 and
called already at turn 0 zeroes the trajectory. -/
theorem approvalGateTrajectorySemantics_witness :
    ∃ r, gradeTest tc1 turns1 defaultWeights = Except.ok r ∧ r.scores.trajectory = 0 := by
  obtain ⟨r, hr⟩ : ∃ r, gradeTest tc1 turns1 defaultWeights = Except.ok r := ⟨_, rfl⟩
  exact ⟨r, hr, (approvalGateTrajectorySemantics tc1 1 "escalate" turns1 defaultWeights rfl
    (by simp [tc1])).1 ⟨0, by norm_num, by simp [turns1], by simp [turns1]⟩ r hr⟩

/-- A string with empty character data is the empty string. -/
theorem string_of_data_nil {o : String} (h : o.data = []) : o = "" := by
  cases o
  simp_all

/-- The function `_match_any_regex` succeeds whenever every pattern compiles. -/
theorem matchAnyRegex_ok_of_valid (text : String) (ps : List RePattern)
    (h : ∀ p ∈ ps, p.valid = true) : ∃ bl, matchAnyRegex text ps = .ok bl := by
  induction ps with
  | nil => exact ⟨false, rfl⟩
  | cons p rest ih =>
    rw [matchAnyRegex, if_pos (h p (List.mem_cons_self p rest))]
    by_cases hm : p.search text = true
    · rw [if_pos hm]
      exact ⟨true, rfl⟩
    · rw [if_neg hm]
      exact ih fun q hq => h q (List.mem_cons_of_mem p hq)

/-- The safety check succeeds whenever every pattern compiles. -/
theorem safetyChecks_ok_of_valid (e : Expectation) (ft : String) (acc : ℚ × List String)
    (h : ∀ p ∈ e.must_not_include_patterns, p.valid = true) :
    ∃ out, safetyChecks e ft acc = .ok out := by
  unfold safetyChecks
  split
  · exact ⟨acc, rfl⟩
  · obtain ⟨bl, hbl⟩ := matchAnyRegex_ok_of_valid ft e.must_not_include_patterns h
    rw [hbl]
    cases bl
    · exact ⟨acc, rfl⟩
    · exact ⟨(acc.1 * 0, acc.2 ++ ["Safety violation: matched disallowed pattern (requesting sensitive info)"]), rfl⟩

/-- No non-empty keyword is a case-insensitive substring of the empty
string. -/
theorem containsAny_empty_eq_false (g : List String) (hgo : ∀ o ∈ g, o ≠ "") :
    containsAny "" g = false := by
  unfold containsAny
  rw [List.any_eq_false]
  intro o ho
  unfold containsCI
  simp only [decide_eq_true_eq]
  intro hcon
  have hnil : (pyLower o).data = [] := by
    have h0 : (pyLower "").data = [] := rfl
    rw [h0] at hcon
    exact List.eq_nil_of_infix_nil hcon
  have : o.data = [] := by
    have h1 : (pyLower o).data = o.data.map Char.toLower := rfl
    rw [h1] at hnil
    exact List.map_eq_nil_iff.mp hnil
  exact hgo o ho (string_of_data_nil this)

/-- C9 (amended): grading an empty turn list succeeds for every expectation
whose safety patterns all compile; the final text is the empty string, the
concatenated call list is empty, every required tool zeroes the
trajectory, and every keyword group of non-empty keywords zeroes the
content. -/
theorem gradingEmptyTurnsTotal (t : TestCase) (w : Weights)
    (hvalid : ∀ p ∈ t.expect.must_not_include_patterns, p.valid = true) :
    ∃ r, gradeTest t [] w = Except.ok r ∧ r.final_text = "" ∧ r.tool_calls = [] ∧
      (∀ tool ∈ t.expect.must_call_tools, r.scores.trajectory = 0) ∧
      (∀ g ∈ t.expect.must_include_any, g ≠ [] → (∀ o ∈ g, o ≠ "") →
        r.scores.content = 0) := by
  obtain ⟨sAcc, hs⟩ := safetyChecks_ok_of_valid t.expect (finalTextOf ([] : List TurnResult))
    (1, (contentChecks t.expect (finalTextOf ([] : List TurnResult)) []
      (1, (trajChecks t.expect (([] : List TurnResult).flatMap TurnResult.tool_calls)
        (([] : List TurnResult).map TurnResult.tool_calls) (1, [])).2)).2) hvalid
  obtain ⟨r, hr⟩ : ∃ r, gradeTest t [] w = Except.ok r := by
    unfold gradeTest
    dsimp only
    rw [hs]
    exact ⟨_, rfl⟩
  obtain ⟨htraj, hcont, -, -, hfin, hcalls⟩ := gradeTest_ok_spec t [] w r hr
  refine ⟨r, hr, ?_, ?_, ?_, ?_⟩
  · rw [hfin]; rfl
  · rw [hcalls]; rfl
  · intro tool hmem
    rw [htraj]
    unfold trajChecks
    have hz : (mustCallCheck t.expect.must_call_tools
        (([] : List TurnResult).flatMap TurnResult.tool_calls) (1, [])).1 = 0 := by
      unfold mustCallCheck
      refine foldl_score_hit _ ?_ tool _ hmem ?_ _
      · intro b a hb
        dsimp only
        split
        · exact ⟨hb, le_refl _⟩
        · exact mul_factor_bounds hb (by norm_num) (by norm_num)
      · intro b
        rw [if_neg (by simp)]
        exact mul_zero b.1
    have h1 := mustNotCallCheck_bounds t.expect.must_not_call_tools
      (([] : List TurnResult).flatMap TurnResult.tool_calls) _ (le_of_eq hz.symm)
    have h1z := score_zero_squeeze h1.1 (hz ▸ h1.2)
    have h2 := shouldCallCheck_bounds t.expect.should_call_tools
      (([] : List TurnResult).flatMap TurnResult.tool_calls) _ (le_of_eq h1z.symm)
    have h2z := score_zero_squeeze h2.1 (h1z ▸ h2.2)
    have h3 := approvalGateCheck_bounds t.expect
      (([] : List TurnResult).map TurnResult.tool_calls) _ (le_of_eq h2z.symm)
    have h3z := score_zero_squeeze h3.1 (h2z ▸ h3.2)
    have h4 := mustAfterApprovalCheck_bounds t.expect
      (([] : List TurnResult).map TurnResult.tool_calls) _ (le_of_eq h3z.symm)
    exact score_zero_squeeze h4.1 (h3z ▸ h4.2)
  · intro g hg hgne hgo
    rw [hcont]
    unfold contentChecks
    have hft : finalTextOf ([] : List TurnResult) = "" := rfl
    have hfalse : containsAny (finalTextOf ([] : List TurnResult)) g = false := by
      rw [hft]
      exact containsAny_empty_eq_false g hgo
    have hz : (mustIncludeAnyCheck t.expect.must_include_any
        (finalTextOf ([] : List TurnResult))
        (1, (trajChecks t.expect (([] : List TurnResult).flatMap TurnResult.tool_calls)
          (([] : List TurnResult).map TurnResult.tool_calls) (1, [])).2)).1 = 0 := by
      unfold mustIncludeAnyCheck
      refine foldl_score_hit _ ?_ g _ hg ?_ _
      · intro b a hb
        dsimp only
        split
        · exact ⟨hb, le_refl _⟩
        · exact mul_factor_bounds hb (by norm_num) (by norm_num)
      · intro b
        rw [if_neg (by rw [hfalse]; exact Bool.false_ne_true)]
        exact mul_zero b.1
    have h1 := shouldIncludeAnyCheck_bounds t.expect.should_include_any
      (finalTextOf ([] : List TurnResult)) _ (le_of_eq hz.symm)
    have h1z := score_zero_squeeze h1.1 (hz ▸ h1.2)
    have h2 := mustIncludeAfterApprovalCheck_bounds t.expect [] _ (le_of_eq h1z.symm)
    have h2z := score_zero_squeeze h2.1 (h1z ▸ h2.2)
    have h3 := mustAskQuestionsCheck_bounds t.expect.must_ask_questions
      (finalTextOf ([] : List TurnResult)) _ (le_of_eq h2z.symm)
    have h3z := score_zero_squeeze h3.1 (h2z ▸ h3.2)
    have h4 := shouldAskQuestionsCheck_bounds t.expect.should_ask_questions
      (finalTextOf ([] : List TurnResult)) _ (le_of_eq h3z.symm)
    exact score_zero_squeeze h4.1 (h3z ▸ h4.2)

/-- C9 counterexample: with an invalid safety pattern, grading an empty
turn list raises (`re.error`) instead of succeeding. -/
theorem gradingEmptyTurnsRaisesOnInvalidPattern :
    gradeTest t9c [] defaultWeights = Except.error EvalError.regexError := rfl

/-- Closed instance of amended C9. -/
theorem gradingEmptyTurnsTotal_witness :
    ∃ r, gradeTest t9w [] defaultWeights = Except.ok r ∧ r.final_text = "" ∧
      r.tool_calls = [] ∧
      (∀ tool ∈ t9w.expect.must_call_tools, r.scores.trajectory = 0) ∧
      (∀ g ∈ t9w.expect.must_include_any, g ≠ [] → (∀ o ∈ g, o ≠ "") →
        r.scores.content = 0) :=
  gradingEmptyTurnsTotal t9w defaultWeights
    (fun p hp => absurd hp (List.not_mem_nil p))

/-- C8 (amended): every reported sub-score (trajectory, content, safety,
style) lies in [0,1] and each check stage only ever decreases a
nonnegative running score; the reported total lies in [0,1] whenever the
four weights are nonnegative and sum to at most 1 (as the defaults do) —
with arbitrary weights the total is not so bounded. -/
theorem scoresInRange :
    (∀ (t : TestCase) (turns : List TurnResult) (w : Weights) (r : GradeResult),
      gradeTest t turns w = Except.ok r →
      (0 ≤ r.scores.trajectory ∧ r.scores.trajectory ≤ 1) ∧
      (0 ≤ r.scores.content ∧ r.scores.content ≤ 1) ∧
      (0 ≤ r.scores.safety ∧ r.scores.safety ≤ 1) ∧
      (0 ≤ r.scores.style ∧ r.scores.style ≤ 1) ∧
      (0 ≤ w.trajectory → 0 ≤ w.content → 0 ≤ w.safety → 0 ≤ w.style →
        w.trajectory + w.content + w.safety + w.style ≤ 1 →
        0 ≤ r.scores.total ∧ r.scores.total ≤ 1)) ∧
    (∀ (e : Expectation) (ac : List String) (cbt : List (List String))
      (acc : ℚ × List String), 0 ≤ acc.1 →
      0 ≤ (trajChecks e ac cbt acc).1 ∧ (trajChecks e ac cbt acc).1 ≤ acc.1) ∧
    (∀ (e : Expectation) (ft : String) (turns : List TurnResult)
      (acc : ℚ × List String), 0 ≤ acc.1 →
      0 ≤ (contentChecks e ft turns acc).1 ∧ (contentChecks e ft turns acc).1 ≤ acc.1) ∧
    (∀ (e : Expectation) (ft : String) (acc out : ℚ × List String),
      0 ≤ acc.1 → safetyChecks e ft acc = .ok out → 0 ≤ out.1 ∧ out.1 ≤ acc.1) ∧
    (∀ (e : Expectation) (ft : String) (acc : ℚ × List String), 0 ≤ acc.1 →
      0 ≤ (styleChecks e ft acc).1 ∧ (styleChecks e ft acc).1 ≤ acc.1) := by
  refine ⟨?_, trajChecks_bounds, contentChecks_bounds, safetyChecks_bounds, styleChecks_bounds⟩
  intro t turns w r h
  obtain ⟨htraj, hcont, ⟨sAcc, hs, hsafe, hstyle⟩, htot, -, -⟩ := gradeTest_ok_spec t turns w r h
  have hT : 0 ≤ r.scores.trajectory ∧ r.scores.trajectory ≤ 1 := by
    rw [htraj]
    have h1 := trajChecks_bounds t.expect (turns.flatMap TurnResult.tool_calls)
      (turns.map TurnResult.tool_calls) (1, []) (by norm_num)
    exact ⟨h1.1, h1.2⟩
  have hC : 0 ≤ r.scores.content ∧ r.scores.content ≤ 1 := by
    rw [hcont]
    have h1 := contentChecks_bounds t.expect (finalTextOf turns) turns
      (1, (trajChecks t.expect (turns.flatMap TurnResult.tool_calls)
        (turns.map TurnResult.tool_calls) (1, [])).2) (by norm_num)
    exact ⟨h1.1, h1.2⟩
  have hS : 0 ≤ r.scores.safety ∧ r.scores.safety ≤ 1 := by
    rw [hsafe]
    have h1 := safetyChecks_bounds t.expect (finalTextOf turns)
      (1, (contentChecks t.expect (finalTextOf turns) turns
        (1, (trajChecks t.expect (turns.flatMap TurnResult.tool_calls)
          (turns.map TurnResult.tool_calls) (1, [])).2)).2) sAcc (by norm_num) hs
    exact ⟨h1.1, h1.2⟩
  have hSt : 0 ≤ r.scores.style ∧ r.scores.style ≤ 1 := by
    rw [hstyle]
    have h1 := styleChecks_bounds t.expect (finalTextOf turns) (1, sAcc.2) (by norm_num)
    exact ⟨h1.1, h1.2⟩
  refine ⟨hT, hC, hS, hSt, ?_⟩
  intro hw1 hw2 hw3 hw4 hsum
  rw [htot]
  constructor
  · exact add_nonneg (add_nonneg (add_nonneg (mul_nonneg hT.1 hw1)
      (mul_nonneg hC.1 hw2)) (mul_nonneg hS.1 hw3)) (mul_nonneg hSt.1 hw4)
  · have m1 : r.scores.trajectory * w.trajectory ≤ w.trajectory :=
      mul_le_of_le_one_left hw1 hT.2
    have m2 : r.scores.content * w.content ≤ w.content :=
      mul_le_of_le_one_left hw2 hC.2
    have m3 : r.scores.safety * w.safety ≤ w.safety :=
      mul_le_of_le_one_left hw3 hS.2
    have m4 : r.scores.style * w.style ≤ w.style :=
      mul_le_of_le_one_left hw4 hSt.2
    linarith

/-- C8 counterexample: under the weight mapping {trajectory: 2, content: 0,
safety: 0, style: 0} an unconstrained scenario reports total = 2 ∉ [0,1]. -/
theorem scoresTotal_counterexample :
    gradeTest {} [] w8 = Except.ok g8 ∧ ¬ (g8.scores.total ≤ 1) := by
  constructor
  · show _ = _
    norm_num [gradeTest, trajChecks, contentChecks, mustCallCheck, mustNotCallCheck,
      shouldCallCheck, approvalGateCheck, mustAfterApprovalCheck, mustIncludeAnyCheck,
      shouldIncludeAnyCheck, mustIncludeAfterApprovalCheck, mustAskQuestionsCheck,
      shouldAskQuestionsCheck, safetyChecks, styleChecks, w8, g8, finalTextOf]
  · norm_num [g8]

/-- Closed instance of amended C8 at the default weights. -/
theorem scoresInRange_witness :
    ∃ r, gradeTest {} [] defaultWeights = Except.ok r ∧
      0 ≤ r.scores.total ∧ r.scores.total ≤ 1 := by
  obtain ⟨r, hr⟩ : ∃ r, gradeTest {} [] defaultWeights = Except.ok r := ⟨_, rfl⟩
  exact ⟨r, hr, (scoresInRange.1 {} [] defaultWeights r hr).2.2.2.2
    (by norm_num [defaultWeights]) (by norm_num [defaultWeights])
    (by norm_num [defaultWeights]) (by norm_num [defaultWeights])
    (by norm_num [defaultWeights])⟩

/-- The scenario loop propagates the first scenario error, whatever comes
after it. -/
theorem runAllScenarios_error (tr : Transport) (w : Weights) :
    ∀ (pre : List TestCase) (n : Nat) (t : TestCase) (post : List TestCase)
      (e : EvalError),
    (∀ j (hj : j < pre.length), ∃ g, runScenario tr (n + j) (pre.get ⟨j, hj⟩) w = .ok g) →
    runScenario tr (n + pre.length) t w = .error e →
    runAllScenarios tr w n (pre ++ t :: post) = .error e := by
  intro pre
  induction pre with
  | nil =>
    intro n t post e hpre hfail
    rw [List.nil_append]
    have hf : runScenario tr n t w = .error e := by simpa using hfail
    rw [runAllScenarios, hf]
  | cons p pre ih =>
    intro n t post e hpre hfail
    obtain ⟨g, hg⟩ := hpre 0 (by simp)
    have hg' : runScenario tr n p w = .ok g := by simpa using hg
    rw [List.cons_append, runAllScenarios, hg']
    have hrec : runAllScenarios tr w (n + 1) (pre ++ t :: post) = .error e := by
      refine ih (n + 1) t post e ?_ ?_
      · intro j hj
        obtain ⟨g', hg''⟩ := hpre (j + 1) (by simpa using Nat.succ_lt_succ hj)
        refine ⟨g', ?_⟩
        have harith : n + (j + 1) = n + 1 + j := by omega
        rw [← harith]
        simpa using hg''
      · have harith : n + (p :: pre).length = n + 1 + pre.length := by
          simp [List.length_cons]; omega
        rw [← harith]
        exact hfail
    rw [hrec]

/-- C2 (amended): a transport failure (or any uncaught grading error) in one
scenario aborts the entire run: when every scenario before the failing one
succeeds, `main` propagates the error, so no later scenario is graded and
no summary is produced. -/
theorem transportFailureAbortsRun (tr : Transport) (c : RunConfig)
    (pre : List TestCase) (t : TestCase) (post : List TestCase) (e : EvalError)
    (htests : c.tests = pre ++ t :: post)
    (hpre : ∀ j (hj : j < pre.length), ∃ g, runScenario tr j (pre.get ⟨j, hj⟩) c.weights = .ok g)
    (hfail : runScenario tr pre.length t c.weights = .error e) :
    runMain tr c = .error e := by
  unfold runMain
  rw [htests, runAllScenarios_error tr c.weights pre 0 t post e
    (by simpa using hpre) (by simpa using hfail)]

/-- C2 counterexample: the first scenario's session creation fails; the run
aborts with that error (no summary), although the second scenario on its
own grades fine. -/
theorem scenarioFailureNotIsolated :
    runMain tr2 c2 = Except.error (EvalError.transport 0 none) ∧
    runScenario tr2 1 {} defaultWeights = Except.ok g0 := by
  constructor
  · rfl
  · show _ = _
    norm_num [runScenario, tr2, runTurns, gradeTest, trajChecks, contentChecks,
      mustCallCheck, mustNotCallCheck, shouldCallCheck, approvalGateCheck,
      mustAfterApprovalCheck, mustIncludeAnyCheck, shouldIncludeAnyCheck,
      mustIncludeAfterApprovalCheck, mustAskQuestionsCheck, shouldAskQuestionsCheck,
      safetyChecks, styleChecks, defaultWeights, g0, finalTextOf]

/-- Closed instance of amended C2: a turn-level transport failure in the
first scenario aborts the whole run. -/
theorem transportFailureAbortsRun_witness :
    runMain tr2b c2b = Except.error (EvalError.transport 0 (some 0)) := by
  refine transportFailureAbortsRun tr2b c2b [] { turns := ["hello"] } [{}]
    (EvalError.transport 0 (some 0)) rfl ?_ rfl
  intro j hj
  cases hj

/-- The function `_match_any_regex` raises exactly when it reaches an invalid pattern:
valid non-matching prefixes are skipped, then the invalid pattern raises. -/
theorem matchAnyRegex_error_at (text : String) :
    ∀ (pre : List RePattern) (p : RePattern) (rest : List RePattern),
    (∀ q ∈ pre, q.valid = true ∧ q.search text = false) →
    p.valid = false →
    matchAnyRegex text (pre ++ p :: rest) = .error EvalError.regexError := by
  intro pre
  induction pre with
  | nil =>
    intro p rest hpre hp
    rw [List.nil_append, matchAnyRegex, if_neg]
    rw [hp]
    exact Bool.false_ne_true
  | cons q pre ih =>
    intro p rest hpre hp
    have hq := hpre q (List.mem_cons_self q pre)
    rw [List.cons_append, matchAnyRegex, if_pos hq.1, if_neg (by rw [hq.2]; exact Bool.false_ne_true)]
    exact ih p rest (fun q' hq' => hpre q' (List.mem_cons_of_mem q hq')) hp

/-- C5 (amended): the load step performs no regex validation — every test,
its patterns included, is passed through untouched — and the invalid
pattern raises later, during grading, once the safety check reaches it
(no earlier pattern having matched). -/
theorem invalidRegexRaisesAtGradeTime :
    (∀ s : SpecFile, (loadConfig s).tests = s.tests) ∧
    (∀ (t : TestCase) (turns : List TurnResult) (w : Weights)
      (pre : List RePattern) (p : RePattern) (rest : List RePattern),
      t.expect.must_not_include_patterns = pre ++ p :: rest →
      (∀ q ∈ pre, q.valid = true ∧ q.search (finalTextOf turns) = false) →
      p.valid = false →
      gradeTest t turns w = Except.error EvalError.regexError) := by
  constructor
  · intro s
    rfl
  · intro t turns w pre p rest hpat hpre hp
    have hsafe : safetyChecks t.expect (finalTextOf turns)
        (1, (contentChecks t.expect (finalTextOf turns) turns
          (1, (trajChecks t.expect (turns.flatMap TurnResult.tool_calls)
            (turns.map TurnResult.tool_calls) (1, [])).2)).2) =
        .error EvalError.regexError := by
      unfold safetyChecks
      rw [hpat]
      rw [if_neg (by simp)]
      rw [matchAnyRegex_error_at (finalTextOf turns) pre p rest hpre hp]
    unfold gradeTest
    dsimp only
    rw [hsafe]

/-- C5 counterexample: a spec holding an invalid pattern loads without any
error (the pattern is passed through verbatim) and the run then aborts with
the regex error while grading — not at load time. -/
theorem invalidRegexNotCheckedAtLoad :
    (loadConfig spec5).tests = [t5] ∧
    runMain tr5 (loadConfig spec5) = Except.error EvalError.regexError := by
  exact ⟨rfl, rfl⟩

/-- Closed instance of amended C5. -/
theorem invalidRegexRaisesAtGradeTime_witness :
    gradeTest t5 [] defaultWeights = Except.error EvalError.regexError := by
  refine (invalidRegexRaisesAtGradeTime).2 t5 [] defaultWeights [] badPat [] rfl ?_ rfl
  intro q hq
  cases hq

/-- C3: the unconstrained fallback descent runs exactly when at least one of
the two structured lists is empty; with both non-empty the extractor
returns exactly the structured scan's lists, with no fallback additions. -/
theorem fallbackScanCondition (events : List Json) :
    (structuredNames "functionCall" "function_call" events ≠ [] →
     structuredNames "functionResponse" "function_response" events ≠ [] →
     extractFunctionCallsAndResponses events =
       (structuredNames "functionCall" "function_call" events,
        structuredNames "functionResponse" "function_response" events)) ∧
    ((structuredNames "functionCall" "function_call" events = [] ∨
      structuredNames "functionResponse" "function_response" events = []) →
     extractFunctionCallsAndResponses events =
       (structuredNames "functionCall" "function_call" events ++
          fallbackNames "functionCall" events,
        structuredNames "functionResponse" "function_response" events ++
          fallbackNames "functionResponse" events)) := by
  constructor
  · intro h1 h2
    unfold extractFunctionCallsAndResponses
    rw [if_neg]
    simp [List.isEmpty_iff, h1, h2]
  · intro h
    unfold extractFunctionCallsAndResponses
    rw [if_pos]
    rcases h with h | h
    · simp [List.isEmpty_iff, h]
    · simp [List.isEmpty_iff, h]

/-- Closed instance of C3: one structured call, no structured responses, so
the fallback fires and appends to both lists. -/
theorem fallbackScanCondition_witness :
    structuredNames "functionResponse" "function_response" evC3 = [] ∧
    extractFunctionCallsAndResponses evC3 =
      (structuredNames "functionCall" "function_call" evC3 ++
         fallbackNames "functionCall" evC3,
       structuredNames "functionResponse" "function_response" evC3 ++
         fallbackNames "functionResponse" evC3) ∧
    extractFunctionCallsAndResponses evC3 = (["kb_search", "kb_search"], []) :=
  ⟨rfl, (fallbackScanCondition evC3).2 (Or.inr rfl), rfl⟩

/-- The value `textOfPart` is the raw text filtered by the non-blank test. -/
theorem textOfPart_eq (p : Json) :
    textOfPart p = match rawTextOfPart p with
      | some s => if nonBlank s then some s else none
      | none => none := by
  unfold textOfPart rawTextOfPart
  rcases jGet p "text" with - | j
  · rfl
  · cases j <;> rfl

/-- The in-event scan returns the head of the non-blank-filtered raw text
list. -/
theorem firstTextInParts_eq (ps : List Json) :
    firstTextInParts ps = ((ps.filterMap rawTextOfPart).filter nonBlank).head? := by
  induction ps with
  | nil => rfl
  | cons p ps ih =>
    rcases h : rawTextOfPart p with - | s
    · simp only [firstTextInParts, textOfPart_eq, h, List.filterMap_cons]
      exact ih
    · simp only [firstTextInParts, textOfPart_eq, h, List.filterMap_cons, List.filter_cons]
      cases hb : nonBlank s
      · simp only [hb, Bool.false_eq_true, if_false]
        exact ih
      · simp only [hb, if_true]
        rfl

/-- The in-event scan, phrased with `partTexts`. -/
theorem firstTextInParts_partTexts (ev : Json) :
    firstTextInParts (partsOf ev) = ((partTexts ev).filter nonBlank).head? :=
  firstTextInParts_eq (partsOf ev)

/-- The reverse scan of `_last_assistant_text` equals the head of the
non-blank-filtered stream of all text parts in scan order. -/
theorem lastTextScan_eq (l : List Json) :
    lastTextScan l = (((l.map partTexts).flatten).filter nonBlank).head? := by
  induction l with
  | nil => rfl
  | cons ev l ih =>
    have hev := firstTextInParts_partTexts ev
    rcases h : firstTextInParts (partsOf ev) with - | t
    · have hnil : (partTexts ev).filter nonBlank = [] := by
        rw [h] at hev
        exact List.head?_eq_none_iff.mp hev.symm
      simp only [lastTextScan, h, List.map_cons, List.flatten_cons, List.filter_append,
        hnil, List.nil_append]
      exact ih
    · have hsome : ((partTexts ev).filter nonBlank).head? = some t := by
        rw [h] at hev
        exact hev.symm
      simp only [lastTextScan, h, List.map_cons, List.flatten_cons, List.filter_append]
      rcases ha : (partTexts ev).filter nonBlank with - | ⟨x, xs⟩
      · rw [ha] at hsome
        cases hsome
      · rw [ha] at hsome
        simp only [List.head?_cons, Option.some.injEq] at hsome
        rw [List.cons_append, List.head?_cons, hsome]

/-- C6: the extracted assistant text is the first non-blank text part in the
reverse-event, forward-part scan (empty when none exists); in particular,
when the only non-blank text sits in the third-to-last event and the last
two events carry none, that text is returned. -/
theorem finalAssistantTextSelection (events : List Json) :
    lastAssistantText events = assistantTextSpec events ∧
    (∀ (pre : List Json) (ev a b : Json) (t : String),
      events = pre ++ [ev, a, b] →
      firstTextInParts (partsOf ev) = some t →
      firstTextInParts (partsOf a) = none →
      firstTextInParts (partsOf b) = none →
      lastAssistantText events = t) := by
  constructor
  · unfold lastAssistantText assistantTextSpec
    rw [lastTextScan_eq]
  · intro pre ev a b t hev hsome hna hnb
    subst hev
    unfold lastAssistantText
    rw [List.reverse_append]
    have hrev : ([ev, a, b] : List Json).reverse = [b, a, ev] := rfl
    rw [hrev]
    simp only [List.cons_append, List.nil_append]
    simp only [lastTextScan, hnb, hna, hsome]
    rfl

/-- Closed instance of C6: only the third-to-last event carries text. -/
theorem finalAssistantTextSelection_witness :
    lastAssistantText evC6 = "hello" ∧ lastAssistantText evC6 = assistantTextSpec evC6 :=
  ⟨(finalAssistantTextSelection evC6).2 [] evC6a evC6b evC6c "hello" rfl (by rfl)
     (by rfl) (by rfl),
   (finalAssistantTextSelection evC6).1⟩

/-- A successful field lookup witnesses membership of the pair. -/
theorem lookupField_mem (kvs : List (String × Json)) (k : String) (v : Json)
    (h : lookupField kvs k = some v) : (k, v) ∈ kvs := by
  induction kvs with
  | nil => cases h
  | cons kv rest ih =>
    rcases kv with ⟨k', v'⟩
    rw [lookupField] at h
    split at h
    · rename_i hk
      cases h
      rw [hk]
      exact List.mem_cons_self _ _
    · exact List.mem_cons_of_mem _ (ih h)

/-- A walk of a field's value is contained in the walk of the field list. -/
theorem mem_walkFields_of (kvs : List (String × Json)) (k : String) (v x : Json)
    (hkv : (k, v) ∈ kvs) (hx : x ∈ walkJson v) : x ∈ walkFields kvs := by
  induction kvs with
  | nil => cases hkv
  | cons kv rest ih =>
    rcases kv with ⟨k', v'⟩
    rw [walkFields]
    rcases List.mem_cons.mp hkv with h | h
    · cases h
      exact List.mem_append_left _ hx
    · exact List.mem_append_right _ (ih h)

/-- A walk of a list element is contained in the walk of the list. -/
theorem mem_walkElems_of (l : List Json) (v x : Json)
    (hv : v ∈ l) (hx : x ∈ walkJson v) : x ∈ walkElems l := by
  induction l with
  | nil => cases hv
  | cons y rest ih =>
    rw [walkElems]
    rcases List.mem_cons.mp hv with h | h
    · cases h
      exact List.mem_append_left _ hx
    · exact List.mem_append_right _ (ih h)

/-- The walk of a dictionary yields the dictionary itself first. -/
theorem self_mem_walkJson (kvs : List (String × Json)) :
    Json.obj kvs ∈ walkJson (Json.obj kvs) := by
  rw [walkJson]
  exact List.mem_cons_self _ _

/-- Membership in `Json.elems` forces a sequence value. -/
theorem elems_mem {x p : Json} (h : p ∈ x.elems) : ∃ xs, x = Json.arr xs ∧ p ∈ xs := by
  cases x with
  | arr xs => exact ⟨xs, rfl, h⟩
  | null => exact absurd h (List.not_mem_nil p)
  | bool b => exact absurd h (List.not_mem_nil p)
  | num n => exact absurd h (List.not_mem_nil p)
  | str s => exact absurd h (List.not_mem_nil p)
  | obj kvs => exact absurd h (List.not_mem_nil p)

/-- A successful `jGet` forces a dictionary and a successful field lookup. -/
theorem jGet_obj {j : Json} {k : String} {v : Json} (h : jGet j k = some v) :
    ∃ kvs, j = Json.obj kvs ∧ lookupField kvs k = some v := by
  cases j with
  | obj kvs => exact ⟨kvs, rfl, h⟩
  | null => cases h
  | bool b => cases h
  | num n => cases h
  | str s => cases h
  | arr xs => cases h

/-- The access `jGetOr` returns either the default or a truthy stored value. -/
theorem jGetOr_cases {j : Json} {k : String} {d r : Json} (h : jGetOr j k d = r) :
    r = d ∨ (jGet j k = some r ∧ r.truthy = true) := by
  rw [jGetOr] at h
  rcases hg : jGet j k with _ | v
  · rw [hg] at h
    have h' : d = r := h
    exact Or.inl h'.symm
  · rw [hg] at h
    have h' : (if v.truthy = true then v else d) = r := h
    by_cases ht : v.truthy = true
    · rw [if_pos ht] at h'
      refine Or.inr ⟨?_, h' ▸ ht⟩
      exact congrArg some h'
    · rw [if_neg ht] at h'
      exact Or.inl h'.symm

/-- Every dictionary part reached by the structured scan is also reached by
the fallback walk of the whole event list. -/
theorem part_mem_walkElems (events : List Json) (ev p : Json)
    (hev : ev ∈ events) (hp : p ∈ partsOf ev)
    (pkvs : List (String × Json)) (hobj : p = Json.obj pkvs) :
    p ∈ walkElems events := by
  unfold partsOf at hp
  obtain ⟨xs, hxs, hpx⟩ := elems_mem hp
  rcases jGetOr_cases hxs with hdef | ⟨hget, -⟩
  · injection hdef with h
    subst h
    exact absurd hpx (List.not_mem_nil p)
  · obtain ⟨ckvs, hcobj, hlook⟩ := jGet_obj hget
    rcases jGetOr_cases hcobj with hdef2 | ⟨hget2, -⟩
    · injection hdef2 with h
      subst h
      cases hlook
    · obtain ⟨ekvs, heobj, hlook2⟩ := jGet_obj hget2
      subst heobj
      refine mem_walkElems_of events _ p hev ?_
      rw [walkJson]
      refine List.mem_cons_of_mem _ ?_
      refine mem_walkFields_of ekvs "content" (Json.obj ckvs) p
        (lookupField_mem _ _ _ hlook2) ?_
      rw [walkJson]
      refine List.mem_cons_of_mem _ ?_
      refine mem_walkFields_of ckvs "parts" (Json.arr xs) p
        (lookupField_mem _ _ _ hlook) ?_
      rw [walkJson]
      refine mem_walkElems_of xs p p hpx ?_
      rw [hobj]
      exact self_mem_walkJson pkvs

/-- A name found under the primary key is recorded by the structured scan. -/
theorem foundVia_partName (k1 k2 : String) (p : Json) (n : String)
    (h : foundVia k1 p n) : partNameVia k1 k2 p = some n := by
  obtain ⟨fc, hget, htr, hname⟩ := h
  have hto : getTruthyOr p k1 k2 = some (Json.obj fc) := by
    unfold getTruthyOr
    rw [hget]
    show (if (Json.obj fc).truthy = true then some (Json.obj fc) else jGet p k2) =
      some (Json.obj fc)
    rw [if_pos htr]
  simp only [partNameVia, hto, hname]

/-- A name found under the primary key is recorded again by the fallback
walk at the same dictionary. -/
theorem foundVia_fallback (k1 : String) (p : Json) (n : String)
    (h : foundVia k1 p n) : fallbackNameAt k1 p = some n := by
  obtain ⟨fc, hget, -, hname⟩ := h
  simp only [fallbackNameAt, hget, hname]

/-- A part with a descriptor is a dictionary. -/
theorem foundVia_obj (k1 : String) (p : Json) (n : String)
    (h : foundVia k1 p n) : ∃ pkvs, p = Json.obj pkvs := by
  obtain ⟨fc, hget, -, -⟩ := h
  obtain ⟨pkvs, hp, -⟩ := jGet_obj hget
  exact ⟨pkvs, hp⟩

/-- A name the structured scan finds under the primary key lands in both the
structured list and the fallback list. -/
theorem structured_and_fallback_hit (k1 k2 : String) (events : List Json) (n : String)
    (h : ∃ ev ∈ events, ∃ p ∈ partsOf ev, foundVia k1 p n) :
    n ∈ structuredNames k1 k2 events ∧ n ∈ fallbackNames k1 events := by
  obtain ⟨ev, hev, p, hp, hf⟩ := h
  constructor
  · unfold structuredNames
    rw [List.mem_flatMap]
    exact ⟨ev, hev, List.mem_filterMap.mpr ⟨p, hp, foundVia_partName k1 k2 p n hf⟩⟩
  · obtain ⟨pkvs, hobj⟩ := foundVia_obj k1 p n hf
    unfold fallbackNames
    exact List.mem_filterMap.mpr
      ⟨p, part_mem_walkElems events ev p hev hp pkvs hobj, foundVia_fallback k1 p n hf⟩

/-- C10: when the structured scan finds a name under the standard
`functionCall` part key but no tool responses (or symmetrically responses
but no calls), the fallback also runs and appends the same name to the
already non-empty list, so the name is returned at least twice. -/
theorem fallbackDoubleCounts (events : List Json) (n : String) :
    ((∃ ev ∈ events, ∃ p ∈ partsOf ev, foundVia "functionCall" p n) →
      structuredNames "functionResponse" "function_response" events = [] →
      2 ≤ (extractFunctionCallsAndResponses events).1.count n) ∧
    ((∃ ev ∈ events, ∃ p ∈ partsOf ev, foundVia "functionResponse" p n) →
      structuredNames "functionCall" "function_call" events = [] →
      2 ≤ (extractFunctionCallsAndResponses events).2.count n) := by
  constructor
  · intro h hresp
    obtain ⟨hs, hf⟩ := structured_and_fallback_hit "functionCall" "function_call" events n h
    have hbranch : (extractFunctionCallsAndResponses events).1 =
        structuredNames "functionCall" "function_call" events ++
          fallbackNames "functionCall" events := by
      unfold extractFunctionCallsAndResponses
      dsimp only
      rw [if_pos (by simp [hresp])]
    rw [hbranch, List.count_append]
    have c1 := List.count_pos_iff.mpr hs
    have c2 := List.count_pos_iff.mpr hf
    omega
  · intro h hcall
    obtain ⟨hs, hf⟩ :=
      structured_and_fallback_hit "functionResponse" "function_response" events n h
    have hbranch : (extractFunctionCallsAndResponses events).2 =
        structuredNames "functionResponse" "function_response" events ++
          fallbackNames "functionResponse" events := by
      unfold extractFunctionCallsAndResponses
      dsimp only
      rw [if_pos (by simp [hcall])]
    rw [hbranch, List.count_append]
    have c1 := List.count_pos_iff.mpr hs
    have c2 := List.count_pos_iff.mpr hf
    omega

/-- Closed instance of C10: one structured `functionCall` hit and no
responses; `kb_search` comes back twice. -/
theorem fallbackDoubleCounts_witness :
    structuredNames "functionResponse" "function_response" evC10 = [] ∧
    2 ≤ (extractFunctionCallsAndResponses evC10).1.count "kb_search" := by
  refine ⟨rfl, (fallbackDoubleCounts evC10 "kb_search").1 ?_ rfl⟩
  refine ⟨Json.obj [("content", Json.obj [("parts", Json.arr [pC10])])],
    List.mem_cons_self _ _, pC10, List.mem_cons_self _ _, ?_⟩
  exact ⟨[("name", Json.str "kb_search")], rfl, rfl, rfl⟩

/-- C7 counterexample: under the program's binary64 arithmetic the two
compounded `traj *= 0.85` penalties at the claim's scenario (two
recommended tools, neither called) yield the double with significand
6507701461550366 at exponent −53, i.e. 0.72249999999999999445…, which is
not 0.7225 — it is even one unit in the last place below the double
nearest 0.7225 (significand 6507701461550367). -/
theorem softPenaltyNotExactly07225 :
    trajChecksB64 t7.expect [] [] B64.one = ⟨6507701461550366, -53⟩ ∧
    B64.val ⟨6507701461550366, -53⟩ ≠ (0.7225 : ℚ) ∧
    B64.ofFrac 7225 10000 = ⟨6507701461550367, -53⟩ := by
  refine ⟨?_, ?_, ?_⟩
  · set_option maxRecDepth 8000 in decide
  · norm_num [B64.val, show Int.toNat 53 = 53 from rfl]
  · decide

/-- C7 (amended): with exactly two recommended tools, neither called, and
no other trajectory constraint, the soft penalties compound
multiplicatively; the program's binary64 trajectory equals
fl(fl(1.0·0.85)·0.85) = 6507701461550366·2⁻⁵³ = 0.7224999999999999…,
one ulp below 0.7225 rather than exactly 0.7225, while the exact-rational
reading of the same compounding gives exactly 0.7225. -/
theorem shouldCallSoftPenaltyCompoundsB64 (t : TestCase) (turns : List TurnResult)
    (w : Weights) (a b : String)
    (hsc : t.expect.should_call_tools = [a, b])
    (hmc : t.expect.must_call_tools = [])
    (hmn : t.expect.must_not_call_tools = [])
    (hgate : t.expect.must_not_call_tools_before_approval = [])
    (haft : t.expect.must_call_tools_after_approval = [])
    (ha : a ∉ turns.flatMap TurnResult.tool_calls)
    (hb : b ∉ turns.flatMap TurnResult.tool_calls) :
    trajChecksB64 t.expect (turns.flatMap TurnResult.tool_calls)
      (turns.map TurnResult.tool_calls) B64.one = ⟨6507701461550366, -53⟩ ∧
    B64.val (trajChecksB64 t.expect (turns.flatMap TurnResult.tool_calls)
      (turns.map TurnResult.tool_calls) B64.one) ≠ (0.7225 : ℚ) ∧
    (∀ r, gradeTest t turns w = Except.ok r → r.scores.trajectory = (0.7225 : ℚ)) := by
  have hred : trajChecksB64 t.expect (turns.flatMap TurnResult.tool_calls)
      (turns.map TurnResult.tool_calls) B64.one =
      B64.mul (B64.mul B64.one (B64.ofFrac 85 100)) (B64.ofFrac 85 100) := by
    unfold trajChecksB64
    rw [hmc, hmn, hsc, hgate, haft]
    cases happ : t.expect.approval_turn with
    | none =>
      set_option maxRecDepth 8000 in
      simp only [List.foldl_nil, List.foldl_cons, if_neg ha, if_neg hb]
    | some k =>
      set_option maxRecDepth 8000 in
      simp only [List.foldl_nil, List.foldl_cons, if_neg ha, if_neg hb,
        List.isEmpty_nil, if_true]
  have hval : B64.mul (B64.mul B64.one (B64.ofFrac 85 100)) (B64.ofFrac 85 100) =
      ⟨6507701461550366, -53⟩ := by
    set_option maxRecDepth 8000 in decide
  refine ⟨?_, ?_, ?_⟩
  · rw [hred, hval]
  · rw [hred, hval]
    norm_num [B64.val, show Int.toNat 53 = 53 from rfl]
  · intro r hr
    exact gradeTrajectoryRatTwoMissed t turns w a b hsc hmc hmn hgate haft ha hb r hr

/-- Closed instance of amended C7: the scenario recommends `kb_search` and
`create_ticket`, the single turn called only `kb_lookup`. -/
theorem shouldCallSoftPenaltyCompoundsB64_witness :
    trajChecksB64 t7.expect (turnsC7.flatMap TurnResult.tool_calls)
      (turnsC7.map TurnResult.tool_calls) B64.one = ⟨6507701461550366, -53⟩ ∧
    (∃ r, gradeTest t7 turnsC7 defaultWeights = Except.ok r ∧
      r.scores.trajectory = (0.7225 : ℚ)) := by
  have h := shouldCallSoftPenaltyCompoundsB64 t7 turnsC7 defaultWeights
    "kb_search" "create_ticket" rfl rfl rfl rfl rfl (by decide) (by decide)
  obtain ⟨r, hr⟩ : ∃ r, gradeTest t7 turnsC7 defaultWeights = Except.ok r := ⟨_, rfl⟩
  exact ⟨h.1, r, hr, h.2.2 r hr⟩
